import Mathlib

/-!
Verification development for the skiptake library (Go).

This file gives a shallow embedding of the parts of the library that the
frozen claims are about: the split-bit varint codec (skiptake_varint.go,
readVarint2 / appendVarint2), the split-varint pair stream (Decoder /
Encoder), the Builder, the Iterator with Seek (set_operations.go, second
revision), Equal / Len / Expand / Create / FromRaw (skiptake.go), the
set-algebra complement (unnamed/part_003) and intersection
(unnamed/part_001), and the plain-varint decoder with binary.Uvarint
(skiptake_varint.go, first revision).

Conventions of the embedding:
  - Go uint64 values are Nat kept below 2^64; every arithmetic step that
    can wrap in Go goes through add64 / sub64, which reduce mod 2^64.
  - Bytes are Nat below 256 (every byte the encoder emits is reduced
    mod 256 where the Go code narrows to byte).
  - Go loops whose bound is not structural carry an explicit fuel
    argument; every wrapper passes a fuel that is provably sufficient
    because each loop iteration consumes at least one byte of the
    decoded buffer. Exhausted fuel yields a harmless default that the
    wrappers never reach.
-/

namespace Skiptake

/-- Modulus of Go uint64 arithmetic. -/
def U : Nat := 2 ^ 64

/-- math.MaxUint64, the EOS sentinel of the iterator. -/
def M : Nat := U - 1

/-- Go uint64 addition (wraps mod 2^64). -/
def add64 (a b : Nat) : Nat := (a + b) % U

/-- Go uint64 subtraction (wraps mod 2^64). -/
def sub64 (a b : Nat) : Nat := (a + U - b % U) % U

/-! ## Split-bit varint codec (skiptake_varint.go, split = 1) -/

/-- Constant split of skiptake_varint.go: how many flag bits sit below the
varint payload in its first byte. -/
def split : Nat := 1

/-- Constant splitLowmask = (1 << split) - 1. -/
def splitLowmask : Nat := (1 <<< split) - 1

/-- Constant splitHighmask = 0x7f >> split. -/
def splitHighmask : Nat := 0x7f >>> split

/-- Flag value skipFlag of skiptake_varint.go. -/
def skipFlag : Nat := 0

/-- Flag value takeFlag of skiptake_varint.go. -/
def takeFlag : Nat := 1

/-- Trailing bytes of appendVarint2: the Go loop
`for u > 0x80 .. ar[i] = byte(u) | 0x80; u >>= 7 ..` followed by the final
`ar[i] = byte(u)`.  The Go code writes into a fixed 10-byte array
(binary.MaxVarintLen64); the fuel argument mirrors that bound, and for
u < 2^64 the loop runs at most 9 times, so the bound is never reached. -/
def varint2Tail : Nat → Nat → List Nat
  | 0, u => [u % 256]
  | fuel + 1, u =>
    if 0x80 < u then (u % 256 ||| 0x80) :: varint2Tail fuel (u >>> 7)
    else [u % 256]

/-- appendVarint2 of skiptake_varint.go: append the varint encoding of value
u with split-flag e to target. -/
def appendVarint2 (target : List Nat) (u : Nat) (e : Nat) : List Nat :=
  let x := (e &&& splitLowmask) ||| ((u &&& splitHighmask) <<< split)
  if splitHighmask ≤ u then
    target ++ ((x ||| 0x80) :: varint2Tail 10 (u >>> (7 - split)))
  else
    target ++ [x]

/-- Continuation-byte loop of readVarint2: accumulate 7-bit groups shifted by
s (the Go `u |= uint64(x&0x7f) << s` truncates at 64 bits, hence the
mod 2^64), stop at a byte with clear high bit or at the end of the buffer.
Returns the value and how many bytes were consumed. -/
def readVarint2Loop : List Nat → Nat → Nat → Nat × Nat
  | [], u, _ => (u, 0)
  | x :: rest, u, s =>
    let u2 := u ||| (((x &&& 0x7f) <<< s) % U)
    if x < 0x80 then (u2, 1)
    else
      let r := readVarint2Loop rest u2 (s + 7)
      (r.1, r.2 + 1)

/-- readVarint2 of skiptake_varint.go, reading from the head of b: returns
(value, split-flag, bytes consumed).  An empty buffer yields (0, 0) with
nothing consumed, exactly as the Go code leaves u, e and *i untouched. -/
def readVarint2 : List Nat → Nat × Nat × Nat
  | [] => (0, 0, 0)
  | x :: rest =>
    let e := x &&& splitLowmask
    let u := (x &&& 0x7f) >>> split
    if 0x80 ≤ x then
      let r := readVarint2Loop rest u (7 - split)
      (r.1, e, r.2 + 1)
    else (u, e, 1)

/-- readVarint2 reading b at offset i, as the Go function does through its
cursor *i: returns (value, split-flag, the advanced cursor). -/
def readVarint2At (b : List Nat) (i : Nat) : Nat × Nat × Nat :=
  let r := readVarint2 (b.drop i)
  (r.1, r.2.1, i + r.2.2)

/-! ## Split-varint pair stream: Decoder and Encoder (skiptake_varint.go) -/

/-- Decoder of skiptake_varint.go: cursor i, byte buffer Elements, and the
running lastTake (stored as take - 1). -/
structure Decoder where
  i : Nat
  Elements : List Nat
  lastTake : Nat
deriving DecidableEq

/-- Decoder.EOS: the cursor is at or past the end of the buffer. -/
def Decoder.EOS (d : Decoder) : Bool := d.Elements.length ≤ d.i

/-- Decoder.Next of skiptake_varint.go.  Reads one tagged varint; a SKIP
entry yields skip = n + 1 and consumes a directly following TAKE entry into
lastTake when present; a TAKE entry is an implicit zero skip.  Returns
(0, 0) at end of sequence.  The split flag is x &&& 1, so it is always
skipFlag or takeFlag and the two branches are exhaustive. -/
def Decoder.Next (d : Decoder) : (Nat × Nat) × Decoder :=
  if d.EOS then ((0, 0), d)
  else
    let r := readVarint2At d.Elements d.i
    let n := r.1
    let e := r.2.1
    let i1 := r.2.2
    if e = skipFlag then
      let d1 : Decoder := { d with i := i1 }
      if ¬ d1.EOS then
        let r2 := readVarint2At d.Elements i1
        if r2.2.1 = takeFlag then
          let d2 : Decoder := { d with i := r2.2.2, lastTake := r2.1 }
          ((add64 n 1, add64 d2.lastTake 1), d2)
        else
          ((add64 n 1, add64 d1.lastTake 1), d1)
      else
        ((add64 n 1, add64 d1.lastTake 1), d1)
    else
      ((0, add64 n 1), { d with i := i1, lastTake := n })

/-- Decoder.PeekSkip: the value of the next skip entry plus one, without
moving the cursor; 0 when the next entry is a take. -/
def Decoder.PeekSkip (d : Decoder) : Nat :=
  let r := readVarint2At d.Elements d.i
  if r.2.1 ≠ skipFlag then 0 else add64 r.1 1

/-- Encoder of skiptake_varint.go: target buffer and the running lastTake
(stored as take - 1, so that the zero state stands for a previous take
of one). -/
structure Encoder where
  Elements : List Nat
  lastTake : Nat
deriving DecidableEq

/-- Encoder.Add of skiptake_varint.go.  The very first skip is suppressed
when it is zero; skips and takes are stored as value - 1; a take equal to
the previous one is omitted after an emitted skip. -/
def Encoder.Add (enc : Encoder) (skip take : Nat) : Encoder :=
  let emitSkip : Bool := skip != 0 || enc.Elements.length != 0
  let skip1 := sub64 skip 1
  let els1 := if emitSkip then appendVarint2 enc.Elements skip1 skipFlag
              else enc.Elements
  let take1 := sub64 take 1
  if !emitSkip || take1 != enc.lastTake then
    { Elements := appendVarint2 els1 take1 takeFlag, lastTake := take1 }
  else
    { enc with Elements := els1 }

/-- List.Decode of skiptake_varint.go: a fresh decoder at offset 0. -/
def decodeOf (l : List Nat) : Decoder := { i := 0, Elements := l, lastTake := 0 }

/-- List.Encode of skiptake_varint.go: a fresh encoder state over l. -/
def encodeOf (l : List Nat) : Encoder := { Elements := l, lastTake := 0 }

/-- Feeding a list of (skip, take) pairs to Encoder.Add, as the round-trip
tests of the repository do. -/
def encodePairs (ps : List (Nat × Nat)) : List Nat :=
  (ps.foldl (fun enc p => enc.Add p.1 p.2) (encodeOf [])).Elements

/-- The loop of List.GetRaw (skiptake.go): repeat Decoder.Next until EOS,
collecting the pairs.  Each non-EOS call to Next consumes at least one
byte, so fuel = length + 1 is never exhausted. -/
def decodeLoop : Nat → Decoder → List (Nat × Nat) → List (Nat × Nat)
  | 0, _, acc => acc
  | fuel + 1, d, acc =>
    if d.EOS then acc
    else
      let r := d.Next
      decodeLoop fuel r.2 (acc ++ [r.1])

/-- The pair sequence a Decoder reads from l (List.GetRaw with the pairs
kept paired). -/
def GetRaw (l : List Nat) : List (Nat × Nat) :=
  decodeLoop (l.length + 1) (decodeOf l) []

/-! ## Builder (unnamed/part_009, the revision with Finish) -/

/-- Builder of the library: wraps an Encoder and the counters n (next
expected absolute value), skip and take (the pending pair). -/
structure Builder where
  enc : Encoder
  n : Nat
  skip : Nat
  take : Nat
deriving DecidableEq

/-- Build over a fresh empty list (every call site passes a new List). -/
def Build : Builder := { enc := encodeOf [], n := 0, skip := 0, take := 0 }

/-- Builder.flush: write out the pending pair when its take is non-zero. -/
def Builder.flush (b : Builder) : Builder :=
  if 0 < b.take then { b with enc := b.enc.Add b.skip b.take } else b

/-- Builder.Skip: a zero skip increments the pending take; a non-zero skip
flushes the pending pair and starts (skip, 1).  In both cases n advances
by skip + 1. -/
def Builder.Skip (b : Builder) (skip : Nat) : Builder :=
  let n1 := add64 b.n (add64 skip 1)
  if skip = 0 then { b with take := add64 b.take 1, n := n1 }
  else
    let b1 := b.flush
    { b1 with skip := skip, take := 1, n := n1 }

/-- Builder.Take: add to the pending take (and to n). -/
def Builder.Take (b : Builder) (take : Nat) : Builder :=
  { b with take := add64 b.take take, n := add64 b.n take }

/-- Builder.Next: reject a value below n, otherwise Skip the gap. -/
def Builder.Next (b : Builder) (n : Nat) : Bool × Builder :=
  if n < b.n then (false, b) else (true, b.Skip (sub64 n b.n))

/-- Builder.Finish: flush the pending pair and hand out the built list. -/
def Builder.Finish (b : Builder) : List Nat := b.flush.enc.Elements

/-! ## Create, FromRaw, Equal, Len (skiptake.go) -/

/-- Loop of Create: feed each value to Builder.Next, failing on a
non-monotonic input (Go returns nil there). -/
def createLoop : List Nat → Builder → Option Builder
  | [], b => some b
  | v :: vs, b =>
    let r := b.Next v
    if r.1 then createLoop vs r.2 else none

/-- Create of skiptake.go: build a list from a sequence of absolute values;
none models the nil return on non-monotonic input. -/
def Create (values : List Nat) : Option (List Nat) :=
  (createLoop values Build).map Builder.Finish

/-- Loop of FromRaw: consume the flat value list two at a time, dropping a
trailing unpaired skip. -/
def fromRawLoop : List Nat → Encoder → Encoder
  | s :: t :: rest, enc => fromRawLoop rest (enc.Add s t)
  | _, enc => enc

/-- FromRaw of skiptake.go: encode alternating raw skip and take values. -/
def FromRaw (v : List Nat) : List Nat := (fromRawLoop v (encodeOf [])).Elements

/-- Lock-step loop of Equal over the two raw decoders.  Each non-EOS
iteration consumes at least one byte of a, so fuel = a.length + 1 is never
exhausted. -/
def equalLoop : Nat → Decoder → Decoder → Bool
  | 0, _, _ => false
  | fuel + 1, ad, bd =>
    if ad.EOS then bd.EOS
    else
      let ra := ad.Next
      let rb := bd.Next
      if ra.1 = rb.1 then equalLoop fuel ra.2 rb.2 else false

/-- Equal of skiptake.go: walk both raw decoders in lock step and require
both to reach EOS together. -/
def Equal (a b : List Nat) : Bool :=
  equalLoop (a.length + 1) (decodeOf a) (decodeOf b)

/-- Loop of List.Len: sum the takes of a full raw decode. -/
def lenLoop : Nat → Decoder → Nat → Nat
  | 0, _, acc => acc
  | fuel + 1, d, acc =>
    if d.EOS then acc
    else
      let r := d.Next
      lenLoop fuel r.2 (add64 acc r.1.2)

/-- Len of skiptake.go: the number of values in the expanded sequence. -/
def Len (l : List Nat) : Nat := lenLoop (l.length + 1) (decodeOf l) 0

/-! ## Iterator (set_operations.go, second revision: the one whose EOS
sentinel sets both n and take to max-uint64) -/

/-- Iterator of the library: a decoder plus skipSum (count of integers
skipped so far), take (remaining count of the current run) and n (the next
value to yield). -/
structure Iterator where
  dec : Decoder
  skipSum : Nat
  take : Nat
  n : Nat
deriving DecidableEq

/-- List.Iterate: a fresh iterator over a fresh decoder. -/
def Iterate (l : List Nat) : Iterator :=
  { dec := decodeOf l, skipSum := 0, take := 0, n := 0 }

/-- Iterator.Reset: rewind the decoder and zero skipSum, take and n. -/
def Iterator.Reset (t : Iterator) : Iterator :=
  { dec := { t.dec with i := 0 }, skipSum := 0, take := 0, n := 0 }

/-- Iterator.EOS: both n and take hold the max-uint64 sentinel. -/
def Iterator.EOS (t : Iterator) : Bool := t.n == M && t.take == M

/-- Zero-take coalescing loop of Iterator.NextSkipTake: consume decoder
pairs, accumulating skips, until a non-zero take or the end of the stream.
Returns (hitEOS, accumulated skip, take, decoder).  Each iteration past the
first consumes at least one byte, so fuel = length + 1 is never
exhausted. -/
def nstLoop1 : Nat → Decoder → Nat → Nat → Bool × Nat × Nat × Decoder
  | 0, d, skip, take => (true, skip, take, d)
  | fuel + 1, d, skip, take =>
    if take ≠ 0 then (false, skip, take, d)
    else if d.EOS then (true, skip, take, d)
    else
      let r := d.Next
      nstLoop1 fuel r.2 (add64 skip r.1.1) r.1.2

/-- Zero-skip coalescing loop of Iterator.NextSkipTake: while the next
entry peeks as a zero skip, consume it and add its take. -/
def nstLoop2 : Nat → Decoder → Nat → Nat × Decoder
  | 0, d, take => (take, d)
  | fuel + 1, d, take =>
    if d.EOS then (take, d)
    else if d.PeekSkip ≠ 0 then (take, d)
    else
      let r := d.Next
      nstLoop2 fuel r.2 (add64 take r.1.2)

/-- Iterator.NextSkipTake of set_operations.go: coalesce zero takes and
zero skips; on end of stream set n and take to max-uint64 and return
(0, 0), otherwise update skipSum and n and return the coalesced pair. -/
def Iterator.NextSkipTake (t : Iterator) : (Nat × Nat) × Iterator :=
  let fuel := t.dec.Elements.length + 1
  match nstLoop1 fuel t.dec 0 0 with
  | (true, _, _, d) => ((0, 0), { t with dec := d, n := M, take := M })
  | (false, skip, take0, d) =>
    match nstLoop2 fuel d take0 with
    | (take, d2) =>
      ((skip, take),
       { dec := d2, skipSum := add64 t.skipSum skip,
         n := add64 t.n (add64 t.take skip), take := take })

/-- Iterator.Next of set_operations.go: yield the next single value,
max-uint64 at end of sequence. -/
def Iterator.Next (t : Iterator) : Nat × Iterator :=
  if t.take = 0 then
    let r := t.NextSkipTake
    if r.1.1 = 0 ∧ r.1.2 = 0 then (M, r.2)
    else (r.2.n, { r.2 with take := sub64 r.2.take 1, n := add64 r.2.n 1 })
  else (t.n, { t with take := sub64 t.take 1, n := add64 t.n 1 })

/-- Iterator.NextInterval: the next interval as inclusive (first, last);
(max-uint64, 0) at end of stream. -/
def Iterator.NextInterval (t : Iterator) : (Nat × Nat) × Iterator :=
  let r := t.NextSkipTake
  if r.1.1 = 0 ∧ r.1.2 = 0 then ((M, 0), r.2)
  else ((r.2.n, sub64 (add64 r.2.n r.2.take) 1), r.2)

/-- Iterator.Interval: the current interval, priming a never-advanced
iterator first; (max-uint64, 0) at EOS. -/
def Iterator.Interval (t : Iterator) : (Nat × Nat) × Iterator :=
  let t1 := if t.n = 0 ∧ t.take = 0 then (t.NextSkipTake).2 else t
  if t1.EOS then ((M, 0), t1)
  else ((t1.n, sub64 (add64 t1.n t1.take) 1), t1)

/-- Summing loop of Iterator.Seek: consume intervals until the cumulative
take count passes pos; reaching the decoder end sets the EOS sentinel.
Returns (hitEOS, the final takeSum, iterator). -/
def seekLoop : Nat → Iterator → Nat → Nat → Bool × Nat × Iterator
  | 0, t, takeSum, _ => (true, takeSum, t)
  | fuel + 1, t, takeSum, pos =>
    if ¬ takeSum ≤ pos then (false, takeSum, t)
    else if t.dec.EOS then (true, takeSum, { t with n := M, take := M })
    else
      let r := t.NextSkipTake
      seekLoop fuel r.2 (add64 takeSum r.1.2) pos

/-- Iterator.Seek of set_operations.go: position the iterator at ordinal
pos of the expanded sequence; (0, 0) past the end. -/
def Iterator.Seek (t : Iterator) (pos : Nat) : (Nat × Nat) × Iterator :=
  let takeSum := sub64 (add64 t.n t.take) t.skipSum
  let t1 := if pos < takeSum then t.Reset else t
  let takeSum1 := if pos < takeSum then 0 else takeSum
  match seekLoop (t1.dec.Elements.length + 1) t1 takeSum1 pos with
  | (true, _, t2) => ((0, 0), t2)
  | (false, takeSum2, t2) =>
    let t3 := { t2 with take := sub64 takeSum2 pos, n := add64 t2.skipSum pos }
    ((t3.n, t3.take), t3)

/-- Loop of List.Expand: repeat Iterator.Next, appending each value, until
EOS.  The loop runs Len l + 1 times, which is the fuel Expand passes. -/
def expandLoop : Nat → Iterator → List Nat → List Nat
  | 0, _, acc => acc
  | fuel + 1, t, acc =>
    let r := t.Next
    if r.2.EOS then acc else expandLoop fuel r.2 (acc ++ [r.1])

/-- Expand of skiptake.go: the expanded value sequence of the list. -/
def Expand (l : List Nat) : List Nat := expandLoop (Len l + 1) (Iterate l) []

/-! ## Complement (unnamed/part_003: the revision whose boundary guards
are written max - n <= skip and max - n <= take; part_001 writes them as
n + skip >= max and n + take >= max, which agrees whenever n + skip does
not wrap) -/

/-- Loop of the complement: streams the source pairs via NextSkipTake,
emitting the gaps as takes and the runs as skips, bounded to [0, mx].
Returns (builder, n, early) where early records the paths that leave via
return (skipping the end-boundary tail) rather than via break.  In Go the
comparisons are on uint64, hence sub64; along the loop n never passes mx
except on the returning paths, so sub64 mx n is the plain difference.
Every looping iteration consumes at least one source byte, so
fuel = length + 2 is never exhausted. -/
def complementLoop : Nat → Builder → Iterator → Nat → Nat → Builder × Nat × Bool
  | 0, b, _, n, _ => (b, n, true)
  | fuel + 1, b, set, n, mx =>
    let r := set.NextSkipTake
    let skip := r.1.1
    let take := r.1.2
    let set1 := r.2
    if 0 < skip ∧ sub64 mx n ≤ skip then
      (b.Take (add64 (sub64 mx n) 1), add64 n skip, true)
    else
      let b1 :=
        if 0 < skip then
          let b0 := if n = 0 then b.Skip 0 else b
          b0.Take (sub64 skip 1)
        else b
      let n1 := add64 n skip
      if take = 0 then (b1, n1, false)
      else if sub64 mx n1 ≤ take then (b1, add64 n1 take, true)
      else complementLoop fuel (b1.Skip take) set1 (add64 n1 take) mx

/-- ComplementMax of the set operations: the complement of the list within
[0, mx], including the end-boundary tail emitted after a break. -/
def ComplementMax (list : List Nat) (mx : Nat) : List Nat :=
  let r := complementLoop (list.length + 2) Build (Iterate list) 0 mx
  let b := r.1
  let n := r.2.1
  let early := r.2.2
  if ¬ early ∧ n ≤ mx then
    let b1 := if n = 0 then b.Skip 0 else b
    (b1.Take (sub64 mx n)).Finish
  else b.Finish

/-! ## Intersection (unnamed/part_001) -/

/-- Outcome of the per-iterator scan inside the intersection: the iterator
reached EOS (the whole intersection returns), or its interval starts past
the candidate n (restart the outer loop with the larger first), or it holds
an interval containing n. -/
inductive ScanRes where
  | eos : ScanRes
  | bump : Nat → ScanRes
  | ok : ScanRes
deriving DecidableEq

/-- Scan loop of the intersection for one iterator: the first step reads
Interval (which primes a fresh iterator), later steps read NextInterval,
skipping intervals that end before n.  Each later step consumes source
bytes, so fuel covering the byte length is never exhausted. -/
def intersectScan : Nat → Iterator → Nat → Bool → ScanRes × Iterator
  | 0, t, _, _ => (ScanRes.eos, t)
  | fuel + 1, t, n, isFirst =>
    let r := if isFirst then t.Interval else t.NextInterval
    let first := r.1.1
    let last := r.1.2
    let t1 := r.2
    if last < first then (ScanRes.eos, t1)
    else if n ≤ last then
      if n < first then (ScanRes.bump first, t1) else (ScanRes.ok, t1)
    else intersectScan fuel t1 n false

/-- One sweep of the intersection over all iterators (the inner
`for i := range iter`): threads the mutated iterators; an eos or bump
outcome aborts the sweep, leaving later iterators untouched, exactly as
return and continue-outer do in Go. -/
def intersectInner (fuel : Nat) : List Iterator → Nat → ScanRes × List Iterator
  | [], _ => (ScanRes.ok, [])
  | t :: rest, n =>
    match intersectScan fuel t n true with
    | (ScanRes.eos, t1) => (ScanRes.eos, t1 :: rest)
    | (ScanRes.bump m, t1) => (ScanRes.bump m, t1 :: rest)
    | (ScanRes.ok, t1) =>
      match intersectInner fuel rest n with
      | (res, rest1) => (res, t1 :: rest1)

/-- The r-computation of the intersection: the least interval end over the
iterators.  Go ranges over the slice by value here, so the Interval calls
act on copies and their state changes are discarded. -/
def intersectMinLast (iters : List Iterator) : Nat :=
  iters.foldl (fun r t => let last := (t.Interval).1.2; if last < r then last else r) M

/-- Outer loop of the intersection: while r is not max-uint64, sweep all
iterators; on bump retry with the larger candidate, on ok emit
Skip(n - l), Take(r - n) and continue past r.  outerFuel bounds the outer
iterations (each one either advances an iterator or raises the candidate;
the wrappers pass a fuel large enough for the lists considered). -/
def intersectOuter : Nat → Nat → List Iterator → Builder → Nat → Nat → Nat → Builder
  | 0, _, _, b, _, _, _ => b
  | outerFuel + 1, scanFuel, iters, b, n, r, l =>
    if r = M then b
    else
      match intersectInner scanFuel iters n with
      | (ScanRes.eos, _) => b
      | (ScanRes.bump m, iters1) => intersectOuter outerFuel scanFuel iters1 b m r l
      | (ScanRes.ok, iters1) =>
        let r1 := intersectMinLast iters1
        let b1 := (b.Skip (sub64 n l)).Take (sub64 r1 n)
        intersectOuter outerFuel scanFuel iters1 b1 (add64 r1 1) r1 (add64 r1 1)

/-- Intersection of unnamed/part_001: stream all input lists and build the
intersection; zero inputs give the empty list. -/
def Intersection (lists : List (List Nat)) : List Nat :=
  if lists.length = 0 then Build.Finish
  else
    let iters := lists.map Iterate
    let scanFuel := (lists.foldl (fun a l => a + l.length) 0) + 2
    (intersectOuter (scanFuel + 100) scanFuel iters Build 0 0 0).Finish

/-! ## Plain-varint format (skiptake_varint.go, first revision: readVarint
over encoding/binary Uvarint, and SkipTakeDecoder.Next) -/

/-- Loop of binary.Uvarint of the Go standard library: i counts bytes read,
x accumulates the 7-bit groups (truncating at 64 bits as uint64 does), s is
the current shift.  A buffer that ends mid-varint yields (0, 0); a varint
over 10 bytes or overflowing 64 bits yields (0, negative count). -/
def uvarintLoop : List Nat → Nat → Nat → Nat → Nat × Int
  | [], _, _, _ => (0, 0)
  | b :: rest, i, x, s =>
    if i = 10 then (0, -(Int.ofNat i + 1))
    else if b < 0x80 then
      if i = 9 ∧ 1 < b then (0, -(Int.ofNat i + 1))
      else (x ||| ((b <<< s) % U), Int.ofNat i + 1)
    else uvarintLoop rest (i + 1) (x ||| (((b &&& 0x7f) <<< s) % U)) (s + 7)

/-- binary.Uvarint: (value, bytes read), with 0 for a truncated buffer and
a negative count for overflow. -/
def Uvarint (buf : List Nat) : Nat × Int := uvarintLoop buf 0 0 0

/-- readVarint of the plain-varint format: read a varint of s at offset i;
on a truncated or overflowing varint return value 0 and leave the cursor
unchanged.  Returns (value, new cursor). -/
def readVarint (s : List Nat) (i : Nat) : Nat × Nat :=
  let r := Uvarint (s.drop i)
  if r.2 ≤ 0 then (0, i) else (r.1, i + r.2.toNat)

/-- SkipTakeDecoder of the plain-varint format: cursor and byte buffer. -/
structure SkipTakeDecoder where
  i : Nat
  Elements : List Nat
deriving DecidableEq

/-- SkipTakeDecoder.EOS: the cursor is at or past the end of the buffer. -/
def SkipTakeDecoder.EOS (d : SkipTakeDecoder) : Bool := d.Elements.length ≤ d.i

/-- The zero-skip coalescing loop inside SkipTakeDecoder.Next: while bytes
remain at j, speculatively read a skip; a zero skip is consumed together
with its take, which is added to the running take, and the cursor commits
to j.  The loop of the Go code has no bound of its own, so the embedding
indexes it by fuel; none means the loop did not exit within fuel.  (On a
well-formed buffer every iteration advances j, but a truncated varint
leaves j unchanged and the loop never exits.) -/
def stCoalesce : Nat → List Nat → Nat → Nat → Nat → Option (Nat × Nat)
  | 0, _, _, _, _ => none
  | fuel + 1, els, j, xi, take =>
    if els.length ≤ j then some (take, xi)
    else
      let r1 := readVarint els j
      if r1.1 ≠ 0 then some (take, xi)
      else
        let r2 := readVarint els r1.2
        stCoalesce fuel els r2.2 r2.2 (add64 take r2.1)

/-- SkipTakeDecoder.Next of the plain-varint format: read a skip and a
take, then coalesce zero-skip continuations.  none models a call that
never returns because the coalescing loop spins on a truncated varint;
on buffers where the loop exits, the result does not depend on the fuel
passed, and length + 1 covers every terminating run. -/
def SkipTakeDecoder.Next (d : SkipTakeDecoder) : Option ((Nat × Nat) × SkipTakeDecoder) :=
  let r1 := readVarint d.Elements d.i
  let r2 := readVarint d.Elements r1.2
  match stCoalesce (d.Elements.length + 1) d.Elements r2.2 r2.2 r2.1 with
  | none => none
  | some (take, i2) => some ((r1.1, take), { d with i := i2 })

/-- An iterator state at the EOS sentinel, over the empty list. -/
def eosState : Iterator := { dec := decodeOf [], skipSum := 0, take := M, n := M }

/-- makeRange of the test helpers: build a list from inclusive intervals
via Builder.Next and Builder.Take. -/
def makeRange (args : List (Nat × Nat)) : List Nat :=
  (args.foldl (fun b p => ((b.Next p.1).2).Take (p.2 - p.1)) Build).Finish

/-! ## Faithfulness checks

The embedding reproduces the repository's own (passing) tests, so the
failures proved below are properties of the source, not artifacts of the
translation. -/

/-- Test_SkipTake_Expand of the test suite: FromRaw [5,3,10,1,1,2] has
Len 6 and expands to [5, 6, 7, 18, 20, 21]. -/
theorem faithful_expand :
    Len (FromRaw [5, 3, 10, 1, 1, 2]) = 6 ∧
    Expand (FromRaw [5, 3, 10, 1, 1, 2]) = [5, 6, 7, 18, 20, 21] := by
  decide

/-- Test_SkipTake_Compress of the test suite: Create on
[2,3,4,5,9,11,13,15,16] equals FromRaw [2,4,3,1,1,1,1,1,1,2]. -/
theorem faithful_compress :
    (Create [2, 3, 4, 5, 9, 11, 13, 15, 16]).map
      (Equal (FromRaw [2, 4, 3, 1, 1, 1, 1, 1, 1, 2])) = some true := by
  decide

/-- Spec scenario E5 and Test_SkipTake_Seek: over the list built from
[10..14, 20, 21, 22, 30, 40..44, 50], NextSkipTake yields (10, 5), Seek 5
yields (20, 3) with the following Next returning 20, Seek 10 yields
(41, 4), and Seek 16 is past the end. -/
theorem faithful_seek :
    (Create [10, 11, 12, 13, 14, 20, 21, 22, 30, 40, 41, 42, 43, 44, 50]).map (fun l =>
      (((Iterate l).NextSkipTake).1,
       (((Iterate l).NextSkipTake).2.Seek 5).1,
       ((((Iterate l).NextSkipTake).2.Seek 5).2.Next).1,
       (((((Iterate l).NextSkipTake).2.Seek 5).2.Next).2.Seek 10).1,
       ((((((Iterate l).NextSkipTake).2.Seek 5).2.Next).2.Seek 10).2.Seek 16).1))
    = some ((10, 5), (20, 3), 20, (41, 4), (0, 0)) := by
  decide

/-- The InRange case of TestSetOperationsComplementMax: the complement of
the intervals (2,3), (8,11), (17,17) within [0, 19], and its involution
under Equal. -/
theorem faithful_complement_in_range :
    Expand (ComplementMax (makeRange [(2, 3), (8, 11), (17, 17)]) 19)
      = [0, 1, 4, 5, 6, 7, 12, 13, 14, 15, 16, 18, 19] ∧
    Equal (ComplementMax (ComplementMax (makeRange [(2, 3), (8, 11), (17, 17)]) 19) 19)
      (makeRange [(2, 3), (8, 11), (17, 17)]) = true ∧
    Equal (ComplementMax (ComplementMax (makeRange [(0, 1), (4, 5)]) 19) 19)
      (makeRange [(0, 1), (4, 5)]) = true ∧
    Equal (ComplementMax (ComplementMax (makeRange [(4, 5), (11, 19)]) 19) 19)
      (makeRange [(4, 5), (11, 19)]) = true ∧
    Equal (ComplementMax (ComplementMax [] 19) 19) [] = true := by
  decide

/-- The Common case of TestSetOperationsIntersection: the four-list
intersection expands to [12, 13, 14, 16, 41]; the degenerate cases give
the empty list and a single input back. -/
theorem faithful_intersection :
    ((Create [10, 11, 12, 13, 14, 16, 19, 20, 21, 41]).bind (fun l1 =>
     (Create [5, 12, 13, 14, 15, 16, 40, 41, 50, 51, 53]).bind (fun l2 =>
     (Create [1, 3, 5, 7, 9, 11, 12, 13, 14, 15, 16, 17, 19, 21, 23, 25, 40, 41]).map (fun l4 =>
      Expand (Intersection [l1, l2, makeRange [(10, 91), (100, 104)], l4])))))
      = some [12, 13, 14, 16, 41] ∧
    Intersection [] = [] ∧
    (Create [3, 4, 5, 15, 16]).map (fun l => Expand (Intersection [l]))
      = some [3, 4, 5, 15, 16] := by
  decide

/-- Cases of Test_EncodeDecode that avoid the broken value range: the
split-varint pair stream round-trips these pair sequences exactly. -/
theorem faithful_encode_decode :
    GetRaw (encodePairs []) = [] ∧
    GetRaw (encodePairs [(0, 1)]) = [(0, 1)] ∧
    GetRaw (encodePairs [(5, 100)]) = [(5, 100)] ∧
    GetRaw (encodePairs [(30, 1)]) = [(30, 1)] ∧
    GetRaw (encodePairs [(0, 2), (2, 2)]) = [(0, 2), (2, 2)] ∧
    GetRaw (encodePairs [(0, 1), (1, 1), (1, 1), (1, 1), (83, 1), (3, 4), (100, 1), (32, 2)])
      = [(0, 1), (1, 1), (1, 1), (1, 1), (83, 1), (3, 4), (100, 1), (32, 2)] ∧
    GetRaw (encodePairs [(9, 1), (3, 0), (1, 1)]) = [(9, 1), (3, 0), (1, 1)] ∧
    GetRaw (encodePairs [(0, 4), (0, 0), (50, 50)]) = [(0, 4), (0, 0), (50, 50)] := by
  decide

/-! ## The claims -/

/-- C1 (code bug): the split-varint codec does not round-trip every value
in [0, 2^64).  At v = 8192 with the SKIP flag, appendVarint2 stops its
continuation loop at u = 0x80 exactly and emits 0x80 as the final byte;
that byte carries the continuation bit, so readVarint2 runs off the end of
the two bytes written and returns value 0 instead of 8192. -/
theorem c1_split_varint_roundtrip_fails_at_8192 :
    appendVarint2 [] 8192 skipFlag = [0x80, 0x80] ∧
    readVarint2At (appendVarint2 [] 8192 skipFlag) 0 = (0, skipFlag, 2) ∧
    readVarint2At (appendVarint2 [] 8256 skipFlag) 0 = (8256, skipFlag, 3) := by
  decide

/-- C2 (code bug): the pair-stream round trip fails.  Encoding the single
pair (8193, 1) with Encoder.Add (which stores skip - 1 = 8192) produces
the bytes 0x80 0x80, which Decoder.Next reads back as the pair (1, 1); the
expansion of the encoded stream is [1] where the original pair stream
expands to [8193], so the Iterator views differ and the coalescing
allowance does not apply. -/
theorem c2_pair_stream_roundtrip_fails_at_8193 :
    encodePairs [(8193, 1)] = [0x80, 0x80] ∧
    GetRaw (encodePairs [(8193, 1)]) = [(1, 1)] ∧
    Expand (encodePairs [(8193, 1)]) = [1] := by
  decide

/-- C3 (code bug): the build/expand round trip fails.  For the strictly
increasing one-element sequence [8193], Create succeeds and Len is 1, but
Expand returns [1] instead of [8193], because the encoded skip of
8193 - 1 = 8192 hits the appendVarint2 bug of C1. -/
theorem c3_create_expand_roundtrip_fails_at_8193 :
    (Create [8193]).map (fun l => (Len l, Expand l)) = some (1, [1]) := by
  decide

/-- C4 (code bug): complement is not an involution at the boundary.  For
A = Create [3] (value set single 3) and m = 3, the guard max - n <= skip of
the complement fires although the source run starts exactly at max, so
ComplementMax(A, 3) expands to [0, 1, 2, 3] (it wrongly contains the
member 3); the double complement is the empty list and Equal rejects it
against A. -/
theorem c4_complement_involution_fails_at_max_boundary :
    (Create [3]).map (fun a =>
      (Expand (ComplementMax a 3),
       Expand (ComplementMax (ComplementMax a 3) 3),
       Equal (ComplementMax (ComplementMax a 3) 3) a))
    = some ([0, 1, 2, 3], [], false) := by
  decide

/-- C5 (code bug): Equal is not value-set equality.  The lists
FromRaw [5, 2, 0, 3] and FromRaw [5, 5] both expand to [5, 6, 7, 8, 9],
but Equal walks the raw decoders, sees (5, 2) against (5, 5) on the first
step, and returns false. -/
theorem c5_equal_not_value_set_equality :
    Equal (FromRaw [5, 2, 0, 3]) (FromRaw [5, 5]) = false ∧
    Expand (FromRaw [5, 2, 0, 3]) = [5, 6, 7, 8, 9] ∧
    Expand (FromRaw [5, 5]) = [5, 6, 7, 8, 9] := by
  decide

/-- C6 (code bug): the iterator canonical form fails under uint64 wrap.
On FromRaw [1, 1, 2^64 - 1, 0, 1, 5] the second NextSkipTake coalesces the
zero-take pair (2^64 - 1, 0) into the following pair (1, 5); the skip
accumulation 2^64 - 1 + 1 wraps to 0, so a pair after the first is
returned with skip = 0 while the iterator is not at end-of-sequence. -/
theorem c6_iterator_zero_skip_pair_after_first :
    ((Iterate (FromRaw [1, 1, U - 1, 0, 1, 5])).NextSkipTake).1 = (1, 1) ∧
    (((Iterate (FromRaw [1, 1, U - 1, 0, 1, 5])).NextSkipTake).2.NextSkipTake).1 = (0, 5) ∧
    Iterator.EOS (((Iterate (FromRaw [1, 1, U - 1, 0, 1, 5])).NextSkipTake).2.NextSkipTake).2
      = false := by
  decide

/-- C7 (code bug): Seek forgets valid positions after EOS.  For
L = Create [2^64 - 2, 2^64 - 1] (Len 2, Expand correct), seeking past the
end (pos 2) correctly returns (0, 0) and parks the iterator at EOS; but a
following backward Seek to pos 0, which is below Len, also returns (0, 0):
the take-count n + take - skipSum computed from the EOS sentinel wraps to
0 instead of exceeding pos, so the iterator is never rewound. -/
theorem c7_seek_after_eos_loses_position :
    (Create [U - 2, U - 1]).map (fun l =>
      (Len l, Expand l,
       ((Iterate l).Seek 2).1,
       (((Iterate l).Seek 2).2.Seek 0).1))
    = some (2, [U - 2, U - 1], (0, 0), (0, 0)) := by
  decide

/-- C8 (code bug): intersection is not associative at the value-set level.
With A = FromRaw [0, 4097, 0, 4097] (value set 0..8193, encoded in two
pairs so that no single varint hits the C1 bug) and C = FromRaw [0, 6]
(value set 0..5), the inner Intersection [A, A] re-encodes the single take
8194 as take - 1 = 8193, which the appendVarint2 bug corrupts to the value
set 0..1; hence Intersection [Intersection [A, A], C] expands to [0, 1]
while Intersection [A, Intersection [A, C]] expands to [0, 1, 2, 3, 4, 5],
and Equal distinguishes the two. -/
theorem c8_intersection_not_associative :
    Len (FromRaw [0, 4097, 0, 4097]) = 8194 ∧
    ((Iterate (FromRaw [0, 4097, 0, 4097])).NextSkipTake).1 = (0, 8194) ∧
    Expand (Intersection [Intersection [FromRaw [0, 4097, 0, 4097],
        FromRaw [0, 4097, 0, 4097]], FromRaw [0, 6]]) = [0, 1] ∧
    Expand (Intersection [FromRaw [0, 4097, 0, 4097],
        Intersection [FromRaw [0, 4097, 0, 4097], FromRaw [0, 6]]]) = [0, 1, 2, 3, 4, 5] ∧
    Equal (Intersection [Intersection [FromRaw [0, 4097, 0, 4097],
        FromRaw [0, 4097, 0, 4097]], FromRaw [0, 6]])
      (Intersection [FromRaw [0, 4097, 0, 4097],
        Intersection [FromRaw [0, 4097, 0, 4097], FromRaw [0, 6]]]) = false := by
  decide

/-- C9 (code bug): the plain-varint decoder does not terminate on a
truncated varint.  On the one-byte buffer 0x80 readVarint returns value 0
with the cursor unchanged (as the claim says); but the zero-skip
coalescing loop of SkipTakeDecoder.Next then spins forever, because the
cursor never advances while it stays below the buffer length: for every
fuel the loop fails to exit, so the modelled Next is none and iteration
(as run by Len and Expand) never finishes. -/
theorem c9_plain_decoder_diverges_on_truncated_varint :
    (∀ fuel, stCoalesce fuel [0x80] 0 0 0 = none) ∧
    SkipTakeDecoder.Next { i := 0, Elements := [0x80] } = none ∧
    readVarint [0x80] 0 = (0, 0) := by
  refine ⟨?_, by decide, by decide⟩
  intro fuel
  induction fuel with
  | zero => rfl
  | succ k ih => simpa [stCoalesce, readVarint, Uvarint, uvarintLoop, add64] using ih

/-- C10 counterexample: EOS is not absorbing.  Over the empty list the
first Next returns the max-uint64 sentinel and EOS holds; but the second
Next decrements take and wraps n to 0, clearing EOS, and the third Next
returns the non-sentinel value 0. -/
theorem c10_eos_not_absorbing_counterexample :
    ((Iterate []).Next).1 = M ∧
    Iterator.EOS ((Iterate []).Next).2 = true ∧
    Iterator.EOS (((Iterate []).Next).2.Next).2 = false ∧
    ((((Iterate []).Next).2.Next).2.Next).1 = 0 := by
  decide

/-- Helper: Iterator.Next on a state whose take is non-zero yields n and
shrinks the current run. -/
theorem next_of_take_ne_zero (t : Iterator) (h : ¬ t.take = 0) :
    t.Next = (t.n, { t with take := sub64 t.take 1, n := add64 t.n 1 }) := by
  rw [Iterator.Next, if_neg h]

/-- C10 amended: from the EOS state (n and take both max-uint64), Next
returns max-uint64 once more, but it mutates the state: take becomes
max-uint64 - 1 and n wraps to 0, so EOS no longer holds and the following
Next returns 0. -/
theorem c10_eos_cleared_by_next (t : Iterator) (h1 : t.n = M) (h2 : t.take = M) :
    (t.Next).1 = M ∧ (t.Next).2.n = 0 ∧ (t.Next).2.take = M - 1 ∧
    Iterator.EOS (t.Next).2 = false ∧ ((t.Next).2.Next).1 = 0 := by
  have hM : ¬ (M = 0) := by decide
  have hs : sub64 M 1 = M - 1 := by decide
  have ha : add64 M 1 = 0 := by decide
  have hM1 : ¬ (M - 1 = 0) := by decide
  have e1 : t.Next = (t.n, { t with take := sub64 t.take 1, n := add64 t.n 1 }) :=
    next_of_take_ne_zero t (by rw [h2]; exact hM)
  refine ⟨?_, ?_, ?_, ?_, ?_⟩
  · rw [e1, h1]
  · rw [e1, h1, ha]
  · rw [e1, h2, hs]
  · rw [e1, h1, h2, hs, ha]
    simp only [Iterator.EOS]
    decide
  · rw [e1, h1, h2, hs, ha, next_of_take_ne_zero _ hM1]

/-- C10 witness: the amended statement at the concrete EOS state reached
over the empty list. -/
theorem c10_eos_cleared_by_next_witness :
    (eosState.n = M ∧ eosState.take = M) ∧
    ((eosState.Next).1 = M ∧ (eosState.Next).2.n = 0 ∧ (eosState.Next).2.take = M - 1 ∧
     Iterator.EOS (eosState.Next).2 = false ∧ ((eosState.Next).2.Next).1 = 0) :=
  ⟨⟨rfl, rfl⟩, c10_eos_cleared_by_next eosState rfl rfl⟩

end Skiptake
